import Mathlib

/-!
Verification development for the `sql_analyzer` repository.

This file shallowly embeds the core of `sql_analyzer/plan_analyzer.py`,
`sql_analyzer/join_analyzer.py` and `sql_analyzer/suggestions.py` in Lean 4:

* Python floats are modelled as rationals (`ℚ`), Python ints as `Int`.
* Fallible Python code (code that can raise) returns `Except String _`;
  pure code is embedded as total functions.
* The external database collaborator of the JOIN diagnostic is modelled as
  an oracle function from the SQL text of an auxiliary query to its outcome.
* The Python standard library `json.loads` is external to the repository;
  its outcome on the raw plan text is modelled as an input (`ExplainInput`)
  carrying both the raw text and the parse result.
* Regular-expression operations from the source are reimplemented
  character by character, including the backtracking behaviour of the
  concrete patterns used there.

Definitions keep the names of the Python functions where possible.
-/

/-! ## Generic string helpers (models of Python `str` operations) -/

/-- Python whitespace for `\s`, `str.strip()` and `str.split()`. -/
def isSpacePy (c : Char) : Bool :=
  c = ' ' || c = '\t' || c = '\n' || c = '\x0d' || c = '\x0b' || c = '\x0c'

/-- Word character for the regex class `\w` (ASCII inputs). -/
def isWordChar (c : Char) : Bool :=
  c.isAlphanum || c = '_'

/-- `hasPrefixL p s` is true when list `p` is a prefix of list `s`. -/
def hasPrefixL : List Char → List Char → Bool
  | [], _ => true
  | _ :: _, [] => false
  | a :: ps, b :: ss => a = b && hasPrefixL ps ss

/-- `containsL needle hay`: does `needle` occur as a contiguous sublist of `hay`?
Models Python `needle in hay` on strings. -/
def containsL (needle : List Char) : List Char → Bool
  | [] => hasPrefixL needle []
  | c :: rest => hasPrefixL needle (c :: rest) || containsL needle rest

/-- Python `needle in hay` for strings. -/
def containsSub (hay needle : String) : Bool :=
  containsL needle.toList hay.toList

/-- Python `str.lower()` (ASCII). -/
def lowerStr (s : String) : String :=
  String.mk (s.toList.map Char.toLower)

/-- Python `str.upper()` (ASCII). -/
def upperStr (s : String) : String :=
  String.mk (s.toList.map Char.toUpper)

/-- Python `str.strip()`: drop whitespace from both ends. -/
def stripPy (s : String) : String :=
  String.mk (((s.toList.dropWhile isSpacePy).reverse.dropWhile isSpacePy).reverse)

/-- Python `str.lstrip(chars)`: drop leading characters drawn from `set`. -/
def lstripSet (s : String) (set : List Char) : String :=
  String.mk (s.toList.dropWhile (fun c => set.contains c))

/-- Numeric value of a digit run (used for `int()` / `float()` on regex captures). -/
def digitsVal (cs : List Char) : Nat :=
  cs.foldl (fun acc c => acc * 10 + (c.toNat - 48)) 0

/-- Maximal run of `\d` at the front. -/
def maxDigitRun (cs : List Char) : List Char := cs.takeWhile Char.isDigit

/-- Maximal run of the class `[\d.]` at the front. -/
def maxDigitDotRun (cs : List Char) : List Char :=
  cs.takeWhile (fun c => c.isDigit || c = '.')

/-- Rational value of a digit string with at most one dot, as Python `float()`
computes it (e.g. `"1."`, `".5"`, `"12.25"`). -/
def ratOfDigitsDot (cs : List Char) : ℚ :=
  let intPart := cs.takeWhile (fun c => c ≠ '.')
  let rest := cs.dropWhile (fun c => c ≠ '.')
  let frac := rest.drop 1
  (digitsVal intPart : ℚ) + (digitsVal frac : ℚ) / (10 : ℚ) ^ frac.length

/-- Python `float()` restricted to strings over the class `[\d.]` (the only
strings the plan-cost regex can capture): succeeds with the numeric value when
the string has at least one digit and at most one dot; otherwise `float()`
raises `ValueError`, modelled as `none`. -/
def pyFloat (s : String) : Option ℚ :=
  let cs := s.toList
  if cs.all (fun c => c.isDigit || c = '.') &&
      cs.any Char.isDigit && (cs.filter (fun c => c = '.')).length ≤ 1 then
    some (ratOfDigitsDot cs)
  else
    none

/-! ## PlanMetrics (`plan_analyzer.PlanMetrics`) -/

/-- Extracted metrics from a query execution plan (dataclass `PlanMetrics`).
Field defaults mirror the dataclass defaults. -/
structure PlanMetrics where
  startup_cost : ℚ := 0
  total_cost : ℚ := 0
  actual_time_ms : ℚ := 0
  estimated_rows : Int := 0
  actual_rows : Int := 0
  shared_hit_blocks : Int := 0
  shared_read_blocks : Int := 0
  temp_read_blocks : Int := 0
  temp_written_blocks : Int := 0
  planning_time_ms : ℚ := 0
  execution_time_ms : ℚ := 0
  node_types : List String := []
  scan_types : List String := []
  join_types : List String := []
  tables_scanned : List String := []
  has_sequential_scan : Bool := false
  has_full_table_scan : Bool := false
  has_nested_loop : Bool := false
  has_hash_join : Bool := false
  has_large_sort : Bool := false
  has_bitmap_heap_scan : Bool := false
  has_temp_disk_usage : Bool := false
  missing_index_likely : Bool := false
  performance_score : Int := 10
deriving Repr, DecidableEq

/-! ## Performance scorer (`plan_analyzer._calculate_score`) -/

/-- `_calculate_score`: 1–10 performance score.  The source starts at 10 and
applies a sequence of independent `score -= k` statements; that chain is
written here as `10` minus one deduction term per statement, in source
order.  The source's `elif metrics.total_cost > 1000: score -= 0` branch
subtracts nothing and is omitted as the no-op it is. -/
def calculate_score (metrics : PlanMetrics) (slow_threshold_ms : ℚ) : Int :=
  let timeDed : Int := if metrics.execution_time_ms > slow_threshold_ms then 3
    else if metrics.execution_time_ms > slow_threshold_ms / 2 then 1
    else 0
  let seqDed : Int := if metrics.has_sequential_scan then 2 else 0
  let idxDed : Int := if metrics.missing_index_likely then 1 else 0
  let loopDed : Int := if metrics.has_nested_loop then 1 else 0
  let sortDed : Int := if metrics.has_large_sort then 1 else 0
  let tempDed : Int := if metrics.has_temp_disk_usage then 1 else 0
  let costDed : Int := if metrics.total_cost > 10000 then 1 else 0
  max 1 (min 10
    (10 - timeDed - seqDed - idxDed - loopDed - sortDed - tempDed - costDed))

/-- The eight boolean issue flags of `PlanMetrics`. -/
inductive MetricFlag where
  | seqScan
  | fullTableScan
  | nestedLoop
  | hashJoin
  | largeSort
  | bitmapHeapScan
  | tempDiskUsage
  | missingIndex
deriving Repr, DecidableEq

/-- Set one boolean flag of a metrics record to `true`, leaving every other
field unchanged. -/
def setFlag (f : MetricFlag) (m : PlanMetrics) : PlanMetrics :=
  match f with
  | .seqScan => { m with has_sequential_scan := true }
  | .fullTableScan => { m with has_full_table_scan := true }
  | .nestedLoop => { m with has_nested_loop := true }
  | .hashJoin => { m with has_hash_join := true }
  | .largeSort => { m with has_large_sort := true }
  | .bitmapHeapScan => { m with has_bitmap_heap_scan := true }
  | .tempDiskUsage => { m with has_temp_disk_usage := true }
  | .missingIndex => { m with missing_index_likely := true }

/-! ## JSON plan model (`plan_analyzer._walk_plan_node`)

PostgreSQL `EXPLAIN (FORMAT JSON)` plan nodes are dictionaries; the source
reads a fixed set of keys with `node.get(...)`.  A node is modelled as a
typed record of those keys: keys read with a default are plain fields with
that default, keys guarded by `"..." in node` are `Option` fields. -/

/-- The attributes of one plan node that `_walk_plan_node` reads. -/
structure NodeAttrs where
  nodeType : String := ""
  startupCost : ℚ := 0
  totalCost : ℚ := 0
  planRows : Int := 0
  actualRows : Int := 0
  sharedHit : Option Int := none
  sharedRead : Option Int := none
  tempRead : Option Int := none
  tempWritten : Option Int := none
  relationName : Option String := none
  filter : Option String := none
  sortMethod : String := ""
deriving Repr, DecidableEq

/-- A plan node: its attributes plus the child list under the `"Plans"` key. -/
inductive PlanNode where
  | node (attrs : NodeAttrs) (plans : List PlanNode)

/-- Python truthiness of `node.get("Filter")`: present and non-empty. -/
def filterTruthy : Option String → Bool
  | none => false
  | some s => s ≠ ""

/-- The scan-type set of `_walk_plan_node`. -/
def scan_type_set : List String :=
  ["Seq Scan", "Index Scan", "Index Only Scan", "Bitmap Index Scan",
   "Bitmap Heap Scan", "Tid Scan"]

/-- The join-type set of `_walk_plan_node`. -/
def join_type_set : List String :=
  ["Nested Loop", "Hash Join", "Merge Join"]

/-- `metrics.node_types.append(node_type)`. -/
def nodeTypeStep (a : NodeAttrs) (m : PlanMetrics) : PlanMetrics :=
  { m with node_types := m.node_types ++ [a.nodeType] }

/-- Cost extraction: keep the strictly largest `Total Cost` seen, together
with its `Startup Cost`. -/
def costStep (a : NodeAttrs) (m : PlanMetrics) : PlanMetrics :=
  if a.totalCost > m.total_cost then
    { m with total_cost := a.totalCost, startup_cost := a.startupCost }
  else m

/-- Row estimates: `estimated_rows += Plan Rows`, `actual_rows += Actual Rows`. -/
def rowsStep (a : NodeAttrs) (m : PlanMetrics) : PlanMetrics :=
  { m with estimated_rows := m.estimated_rows + a.planRows,
           actual_rows := m.actual_rows + a.actualRows }

/-- Buffer extraction: add each counter that is present; positive temp
counters set `has_temp_disk_usage`. -/
def buffersStep (a : NodeAttrs) (m : PlanMetrics) : PlanMetrics :=
  let m := match a.sharedHit with
    | some v => { m with shared_hit_blocks := m.shared_hit_blocks + v }
    | none => m
  let m := match a.sharedRead with
    | some v => { m with shared_read_blocks := m.shared_read_blocks + v }
    | none => m
  let m := match a.tempRead with
    | some v => { m with temp_read_blocks := m.temp_read_blocks + v,
                         has_temp_disk_usage :=
                           if v > 0 then true else m.has_temp_disk_usage }
    | none => m
  match a.tempWritten with
  | some v => { m with temp_written_blocks := m.temp_written_blocks + v,
                       has_temp_disk_usage :=
                         if v > 0 then true else m.has_temp_disk_usage }
  | none => m

/-- Scan-type classification and `tables_scanned` recording. -/
def scanStep (a : NodeAttrs) (m : PlanMetrics) : PlanMetrics :=
  if scan_type_set.contains a.nodeType then
    let m1 := { m with scan_types := m.scan_types ++ [a.nodeType] }
    let table := a.relationName.getD "unknown"
    if m1.tables_scanned.contains table then m1
    else { m1 with tables_scanned := m1.tables_scanned ++ [table] }
  else m

/-- `Seq Scan` detection; a filtered sequential scan marks a likely missing
index. -/
def seqScanStep (a : NodeAttrs) (m : PlanMetrics) : PlanMetrics :=
  if a.nodeType = "Seq Scan" then
    let m1 := { m with has_sequential_scan := true, has_full_table_scan := true }
    if filterTruthy a.filter then { m1 with missing_index_likely := true } else m1
  else m

/-- `Bitmap Heap Scan` detection. -/
def bitmapStep (a : NodeAttrs) (m : PlanMetrics) : PlanMetrics :=
  if a.nodeType = "Bitmap Heap Scan" then { m with has_bitmap_heap_scan := true }
  else m

/-- Join-type recording. -/
def joinTypesStep (a : NodeAttrs) (m : PlanMetrics) : PlanMetrics :=
  if join_type_set.contains a.nodeType then
    { m with join_types := m.join_types ++ [a.nodeType] }
  else m

/-- `Nested Loop` flag. -/
def nestedLoopStep (a : NodeAttrs) (m : PlanMetrics) : PlanMetrics :=
  if a.nodeType = "Nested Loop" then { m with has_nested_loop := true } else m

/-- `Hash Join` flag. -/
def hashJoinStep (a : NodeAttrs) (m : PlanMetrics) : PlanMetrics :=
  if a.nodeType = "Hash Join" then { m with has_hash_join := true } else m

/-- `Sort` node: large sort when the sort method spills to disk or the
estimated row count exceeds 10,000. -/
def sortStep (a : NodeAttrs) (m : PlanMetrics) : PlanMetrics :=
  if a.nodeType = "Sort" then
    let m1 := if containsSub (lowerStr a.sortMethod) "disk" ||
                 containsSub (lowerStr a.sortMethod) "external" then
        { m with has_large_sort := true }
      else m
    if a.planRows > 10000 then { m1 with has_large_sort := true } else m1
  else m

/-- The per-node body of `_walk_plan_node`, in source order (the child
recursion is factored out into `walk_plan_node`). -/
def visit_node (a : NodeAttrs) (m : PlanMetrics) : PlanMetrics :=
  sortStep a (hashJoinStep a (nestedLoopStep a (joinTypesStep a (bitmapStep a
    (seqScanStep a (scanStep a (buffersStep a (rowsStep a
      (costStep a (nodeTypeStep a m))))))))))

mutual

/-- `_walk_plan_node`: visit the node, then recurse depth-first into
`node.get("Plans", [])`. -/
def walk_plan_node : PlanNode → PlanMetrics → PlanMetrics
  | .node a ps, m => walk_plan_list ps (visit_node a m)

/-- The `for child in node.get("Plans", []):` loop of `_walk_plan_node`. -/
def walk_plan_list : List PlanNode → PlanMetrics → PlanMetrics
  | [], m => m
  | p :: rest, m => walk_plan_list rest (walk_plan_node p m)

end

mutual

/-- All node attributes of a plan tree, in depth-first (visit) order. -/
def allNodes : PlanNode → List NodeAttrs
  | .node a ps => a :: allNodesList ps

/-- All node attributes of a list of plan trees, in visit order. -/
def allNodesList : List PlanNode → List NodeAttrs
  | [] => []
  | p :: rest => allNodes p ++ allNodesList rest

end

/-- The top-level JSON document `plan_data[0]`: optional timing keys and the
`"Plan"` tree. -/
structure PlanData where
  planningTime : Option ℚ := none
  executionTime : Option ℚ := none
  plan : Option PlanNode := none

/-- `_parse_postgres_json_plan`. -/
def parse_postgres_json_plan (plan_data : PlanData) (metrics : PlanMetrics) :
    PlanMetrics :=
  let m := match plan_data.planningTime with
    | some v => { metrics with planning_time_ms := v }
    | none => metrics
  let m := match plan_data.executionTime with
    | some v => { m with actual_time_ms := v }
    | none => m
  match plan_data.plan with
  | some p => walk_plan_node p m
  | none => m

/-! ## Text plan parser (`plan_analyzer._parse_text_plan`)

The two regexes `cost=(\d+\.?\d*)\.\.([\d.]+)` and `rows=(\d+)` are
reimplemented with the exact greedy/backtracking semantics of `re.search`:
at each candidate start the literal must match, then the groups are taken
greedily with the only viable backtracking being the optional dot of
group 1 (a shorter `\d+` or `\d*` always leaves a digit where a dot is
required, so those never help). -/

/-- Match `(\d+\.?\d*)\.\.([\d.]+)` at the start of `cs`, returning the two
captured groups. -/
def costMatchHere (cs : List Char) : Option (String × String) :=
  let A := maxDigitRun cs
  if A.isEmpty then none
  else
    let rest1 := cs.drop A.length
    let dotted : Option (String × String) :=
      match rest1 with
      | '.' :: rest2 =>
        let B := maxDigitRun rest2
        match rest2.drop B.length with
        | '.' :: '.' :: rest4 =>
          let C := maxDigitDotRun rest4
          if C.isEmpty then none
          else some (String.mk (A ++ '.' :: B), String.mk C)
        | _ => none
      | _ => none
    match dotted with
    | some r => some r
    | none =>
      match rest1 with
      | '.' :: '.' :: rest2 =>
        let C := maxDigitDotRun rest2
        if C.isEmpty then none else some (String.mk A, String.mk C)
      | _ => none

/-- `re.search(r"cost=(\d+\.?\d*)\.\.([\d.]+)", s)`: leftmost match. -/
def costSearch : List Char → Option (String × String)
  | [] => none
  | c :: rest =>
    match (if hasPrefixL "cost=".toList (c :: rest) then
            costMatchHere ((c :: rest).drop 5)
          else none) with
    | some r => some r
    | none => costSearch rest

/-- `re.search(r"rows=(\d+)", s)`: leftmost match, returning the digit run. -/
def rowsSearch : List Char → Option (List Char)
  | [] => none
  | c :: rest =>
    match (if hasPrefixL "rows=".toList (c :: rest) then
            (let D := maxDigitRun ((c :: rest).drop 5)
             if D.isEmpty then none else some D)
          else none) with
    | some r => some r
    | none => rowsSearch rest

/-- `_parse_text_plan`: text-based EXPLAIN parsing (SQL Server or PostgreSQL
text format).  The result is `Except` because `float()` on the second cost
capture raises `ValueError` when the capture holds more than one dot. -/
def parse_text_plan (explain_text : String) (metrics : PlanMetrics) :
    Except String PlanMetrics :=
  let lines := lowerStr explain_text
  let m := metrics
  let m := if containsSub lines "seq scan" || containsSub lines "table scan" ||
              containsSub lines "clustered index scan" then
      { m with has_sequential_scan := true, has_full_table_scan := true }
    else m
  let m := if containsSub lines "nested loop" || containsSub lines "nested loops" then
      { m with has_nested_loop := true, join_types := m.join_types ++ ["Nested Loop"] }
    else m
  let m := if containsSub lines "hash join" || containsSub lines "hash match" then
      { m with has_hash_join := true, join_types := m.join_types ++ ["Hash Join"] }
    else m
  let m := if containsSub lines "bitmap heap scan" then
      { m with has_bitmap_heap_scan := true }
    else m
  let m := if containsSub lines "sort" &&
              (containsSub lines "disk" || containsSub lines "external") then
      { m with has_large_sort := true }
    else m
  let costRes : Except String PlanMetrics :=
    match costSearch explain_text.toList with
    | none => .ok m
    | some (g1, g2) =>
      match pyFloat g1 with
      | none => .error ("ValueError: could not convert string to float: " ++ g1)
      | some c1 =>
        match pyFloat g2 with
        | none => .error ("ValueError: could not convert string to float: " ++ g2)
        | some c2 => .ok { m with startup_cost := c1, total_cost := c2 }
  match costRes with
  | .error e => .error e
  | .ok m1 =>
    let m2 := match rowsSearch explain_text.toList with
      | some digits => { m1 with estimated_rows := (digitsVal digits : Int) }
      | none => m1
    let m3 := if containsSub lines "filter:" && containsSub lines "seq scan" then
        { m2 with missing_index_likely := true }
      else m2
    .ok m3

/-! ## SQLite plan parser (`plan_analyzer._parse_sqlite_plan`) -/

/-- `p` is a case-insensitive prefix of `cs`; return the remainder. -/
def ciPrefix : List Char → List Char → Option (List Char)
  | [], rest => some rest
  | _ :: _, [] => none
  | a :: ps, b :: rest =>
    if a.toLower = b.toLower then ciPrefix ps rest else none

/-- `re.match(r"SCAN\s+(\w+)", line, re.IGNORECASE)`: anchored match, capture
the table name. -/
def matchScan (cs : List Char) : Option String :=
  match ciPrefix "scan".toList cs with
  | none => none
  | some r1 =>
    let sp := r1.takeWhile isSpacePy
    if sp.isEmpty then none
    else
      let w := (r1.drop sp.length).takeWhile isWordChar
      if w.isEmpty then none else some (String.mk w)

/-- `re.match(r"SEARCH\s+(\w+)\s+USING\s+(.+)", line, re.IGNORECASE)`:
anchored match, capture the table name and the USING detail. -/
def matchSearch (cs : List Char) : Option (String × String) :=
  match ciPrefix "search".toList cs with
  | none => none
  | some r1 =>
    let sp1 := r1.takeWhile isSpacePy
    if sp1.isEmpty then none
    else
      let r2 := r1.drop sp1.length
      let w := r2.takeWhile isWordChar
      if w.isEmpty then none
      else
        let r3 := r2.drop w.length
        let sp2 := r3.takeWhile isSpacePy
        if sp2.isEmpty then none
        else
          match ciPrefix "using".toList (r3.drop sp2.length) with
          | none => none
          | some r5 =>
            let sp3 := r5.takeWhile isSpacePy
            if sp3.isEmpty then none
            else
              let r6 := r5.drop sp3.length
              if r6.isEmpty then none
              else some (String.mk w, String.mk r6)

/-- The body of the line loop of `_parse_sqlite_plan`. -/
def sqliteLine (metrics : PlanMetrics) (raw_line : String) : PlanMetrics :=
  let line := lstripSet (stripPy raw_line) ['|', '-', ' ']
  let line_lower := lowerStr line
  match matchScan line.toList with
  | some table =>
    let m := { metrics with node_types := metrics.node_types ++ ["SCAN"],
                            scan_types := metrics.scan_types ++ ["Full Table Scan"] }
    let m := if m.tables_scanned.contains table then m
      else { m with tables_scanned := m.tables_scanned ++ [table] }
    { m with has_sequential_scan := true, has_full_table_scan := true,
             missing_index_likely := true }
  | none =>
  match matchSearch line.toList with
  | some (table, usingRaw) =>
    let using_detail := stripPy usingRaw
    let m := { metrics with node_types := metrics.node_types ++ ["SEARCH"] }
    let m := if m.tables_scanned.contains table then m
      else { m with tables_scanned := m.tables_scanned ++ [table] }
    if containsSub (lowerStr using_detail) "covering index" then
      { m with scan_types := m.scan_types ++ ["Covering Index Scan"] }
    else if containsSub (lowerStr using_detail) "integer primary key" then
      { m with scan_types := m.scan_types ++ ["Primary Key Lookup"] }
    else if containsSub (lowerStr using_detail) "automatic" then
      { m with scan_types := m.scan_types ++ ["Automatic Index"],
               missing_index_likely := true }
    else
      { m with scan_types := m.scan_types ++ ["Index Scan"] }
  | none =>
  if containsSub line_lower "temporary b-tree" || containsSub line_lower "temp b-tree" then
    let m := { metrics with node_types := metrics.node_types ++ ["Temporary B-Tree"],
                            has_large_sort := true }
    if containsSub line_lower "order by" then
      { m with scan_types := m.scan_types ++ ["Temp Sort (ORDER BY)"] }
    else if containsSub line_lower "group by" then
      { m with scan_types := m.scan_types ++ ["Temp Sort (GROUP BY)"] }
    else if containsSub line_lower "distinct" then
      { m with scan_types := m.scan_types ++ ["Temp Sort (DISTINCT)"] }
    else
      { m with scan_types := m.scan_types ++ ["Temp Sort"] }
  else if containsSub line_lower "compound subqueries" then
    { metrics with node_types := metrics.node_types ++ ["Compound Subqueries"] }
  else if containsSub line_lower "co-routine" || containsSub line_lower "coroutine" then
    { metrics with node_types := metrics.node_types ++ ["Co-Routine"] }
  else if hasPrefixL "subquery".toList line_lower.toList then
    { metrics with node_types := metrics.node_types ++ ["Subquery"] }
  else if line ≠ "" then
    { metrics with node_types := metrics.node_types ++ [line] }
  else metrics

/-- `_parse_sqlite_plan`: process each line of the EXPLAIN QUERY PLAN text.
(`str.splitlines` is modelled as splitting on `'\n'`; a trailing empty piece
strips to the empty line, which every branch ignores.) -/
def parse_sqlite_plan (explain_text : String) (metrics : PlanMetrics) :
    PlanMetrics :=
  (explain_text.splitOn "\n").foldl sqliteLine metrics

/-! ## `plan_analyzer.analyze_query_plan` -/

/-- The outcome of `json.loads` on the plan text, when it succeeds.  The
source only looks at a successful parse through
`isinstance(plan_data, list) and len(plan_data) > 0`, then reads
`plan_data[0]` as a plan document; `planList` carries that first element.
Any other JSON value (a non-list, or an empty list) is ignored by the
source, which is `noPlan` here.  (A list whose first element is not a
well-typed plan document makes the source raise `TypeError` inside the
`try` block and fall back to text parsing; such ill-typed documents are
outside this model.) -/
inductive ParsedJson where
  | planList (head : PlanData)
  | noPlan

/-- The plan text handed to `analyze_query_plan` together with the outcome
of `json.loads` on it (`none` when `json.loads` raises `JSONDecodeError`).
The intended reading is that `parsed` is exactly what `json.loads raw`
produces. -/
structure ExplainInput where
  raw : String
  parsed : Option ParsedJson

/-- `analyze_query_plan(explain_output, execution_time_ms, slow_threshold_ms,
db_type)`.  `none` models Python `None`; an empty `raw` is falsy and takes
the same early return.  The result is `Except` because the text fallback can
raise (see `parse_text_plan`). -/
def analyze_query_plan (explain_output : Option ExplainInput)
    (execution_time_ms : ℚ := 0) (slow_threshold_ms : ℚ := 500)
    (db_type : String := "postgres") : Except String PlanMetrics :=
  let metrics : PlanMetrics := { execution_time_ms := execution_time_ms }
  match explain_output with
  | none => .ok metrics
  | some e =>
    if e.raw = "" then .ok metrics
    else
      let parsedRes : Except String PlanMetrics :=
        if db_type = "sqlite" then .ok (parse_sqlite_plan e.raw metrics)
        else
          match e.parsed with
          | some (.planList pd) => .ok (parse_postgres_json_plan pd metrics)
          | some .noPlan => .ok metrics
          | none => parse_text_plan e.raw metrics
      match parsedRes with
      | .error err => .error err
      | .ok m =>
        .ok { m with performance_score := calculate_score m slow_threshold_ms }

/-! ## JOIN diagnostic (`join_analyzer`)

The database connection is an external collaborator; it is modelled as an
oracle mapping the SQL text of an auxiliary `SELECT COUNT(*)` query to the
outcome the `cursor.execute` / `fetchone` pair produces: either a fetched
row (or no row), or a raised exception with its message.
`_extract_tables_from_query` and `_extract_where_clause` only preprocess
the query text before the diagnostic logic that the claims are about; the
diagnostic body (`join_analyzer.diagnose_empty_join` after table
extraction) is embedded as `diagnose_empty_join_core`, taking the extracted
table list and WHERE clause as arguments. -/

/-- Outcome of executing one auxiliary COUNT query. -/
inductive QueryOutcome where
  | ok (row : Option Int)
  | err (msg : String)

/-- `TableInfo` dataclass (`alias` is a Lean keyword, hence `aliasName`). -/
structure TableInfo where
  table_name : String
  aliasName : String
  join_type : String
  on_condition : String := ""
deriving Repr, DecidableEq

/-- `TableCount` dataclass (`alias` is a Lean keyword, hence `aliasName`). -/
structure TableCount where
  table_name : String
  aliasName : String
  row_count : Int := 0
  error : Option String := none
deriving Repr, DecidableEq

/-- `JoinStepResult` dataclass. -/
structure JoinStepResult where
  step : Nat
  tables_joined : List String
  join_sql : String
  row_count : Int := 0
  error : Option String := none
deriving Repr, DecidableEq

/-- `JoinDiagnostic` dataclass. -/
structure JoinDiagnostic where
  original_query : String
  tables : List TableInfo := []
  table_counts : List TableCount := []
  join_steps : List JoinStepResult := []
  culprit_table : Option String := none
  culprit_reason : String := ""
deriving Repr, DecidableEq

/-- Python falsiness of an optional string (`not x` for `None` or `""`). -/
def strOptFalsy : Option String → Bool
  | none => true
  | some s => s = ""

/-- `_count_table`: run `SELECT COUNT(*) FROM <table>`; an exception yields
count 0 with the error message attached. -/
def count_table (db : String → QueryOutcome) (table_name : String) :
    Int × Option String :=
  let sql := "SELECT COUNT(*) FROM " ++ table_name
  match db sql with
  | .ok row => (row.getD 0, none)
  | .err e => (0, some e)

/-- The placeholder `TableInfo` used for (unreachable) out-of-range list
accesses of the embedding. -/
def dfltTableInfo : TableInfo := { table_name := "", aliasName := "", join_type := "" }

/-- The SQL text `_count_join_step` builds: the base table plus the JOIN
clauses of `tables[1..up_to_index]`, plus an optional WHERE clause. -/
def join_step_sql (tables : List TableInfo) (up_to_index : Nat)
    (where_clause : String) : String :=
  match tables with
  | [] => ""
  | base :: rest =>
    let sql := "SELECT COUNT(*) FROM " ++ base.table_name ++ " " ++ base.aliasName
    let sql := (rest.take up_to_index).foldl (fun acc t =>
      acc ++ " " ++ t.join_type ++ " " ++ t.table_name ++ " " ++ t.aliasName ++
        (if t.on_condition ≠ "" then " ON " ++ t.on_condition else "")) sql
    if where_clause ≠ "" then sql ++ " WHERE " ++ where_clause else sql

/-- `_count_join_step`: run the incremental JOIN count query; returns
`(row_count, sql, error)`. -/
def count_join_step (db : String → QueryOutcome) (tables : List TableInfo)
    (up_to_index : Nat) (where_clause : String) :
    Int × String × Option String :=
  let sql := join_step_sql tables up_to_index where_clause
  match db sql with
  | .ok row => (row.getD 0, sql, none)
  | .err e => (0, sql, some e)

/-- The `TableCount` row the per-table counting loop of
`diagnose_empty_join` appends for table `t`. -/
def mkTableCount (db : String → QueryOutcome) (t : TableInfo) : TableCount :=
  let r := count_table db t.table_name
  { table_name := t.table_name, aliasName := t.aliasName,
    row_count := r.1, error := r.2 }

/-- The emptiness test of `diagnose_empty_join`:
`tc.row_count == 0 and not tc.error`. -/
def emptyTC (tc : TableCount) : Bool :=
  tc.row_count == 0 && strOptFalsy tc.error

/-- The culprit reason attached when the JOIN added at a step drops the
count to zero. -/
def join_reason (culprit : TableInfo) : String :=
  "JOIN with " ++ culprit.table_name ++ " (" ++ culprit.join_type ++ " ON " ++
    culprit.on_condition ++ ") reduces the result to 0 rows. " ++
    "Check that matching records exist in \x27" ++ culprit.table_name ++
    "\x27 for the join condition."

/-- The `JoinStepResult` recorded at step `i` of the incremental loop (the
loop always runs with an empty WHERE clause). -/
def mkJoinStep (db : String → QueryOutcome) (tables : List TableInfo)
    (i : Nat) : JoinStepResult :=
  let r := count_join_step db tables i ""
  { step := i,
    tables_joined := (tables.take (i + 1)).map (fun t => t.table_name),
    join_sql := r.2.1,
    row_count := r.1,
    error := r.2.2 }

/-- The mutable state of the incremental-JOIN loop of
`diagnose_empty_join`. -/
structure StepLoopState where
  join_steps : List JoinStepResult
  culprit_table : Option String
  culprit_reason : String
  prev_count : Int

/-- The `for step_idx in range(1, len(tables)):` loop of
`diagnose_empty_join`: record every step; whenever the count is 0 and the
previous count was not 0, overwrite the culprit with the table added at
this step. -/
def run_join_steps (db : String → QueryOutcome) (tables : List TableInfo) :
    List Nat → StepLoopState → StepLoopState
  | [], st => st
  | i :: rest, st =>
    let res := mkJoinStep db tables i
    let st1 := { st with join_steps := st.join_steps ++ [res] }
    let st2 := if res.row_count = 0 ∧ st.prev_count ≠ 0 then
        let culprit := tables.getD i dfltTableInfo
        { st1 with culprit_table := some culprit.table_name,
                   culprit_reason := join_reason culprit }
      else st1
    run_join_steps db tables rest { st2 with prev_count := res.row_count }

/-- Step 3 of `diagnose_empty_join`: when no culprit was found by the
incremental loop and the query has a WHERE clause, re-run the full chain
with the WHERE clause; if the count without WHERE is positive and the count
with WHERE is zero, the WHERE clause is the culprit.  Returns the resulting
`(culprit_table, culprit_reason)` pair. -/
def where_clause_phase (db : String → QueryOutcome) (tables : List TableInfo)
    (where_clause : String) (st : StepLoopState) : Option String × String :=
  if strOptFalsy st.culprit_table && where_clause ≠ "" then
    let last_count_no_where : Int := match st.join_steps.getLast? with
      | some s => s.row_count
      | none => 0
    let withWhere := count_join_step db tables (tables.length - 1) where_clause
    if last_count_no_where > 0 ∧ withWhere.1 = 0 then
      (some "WHERE clause",
       "The full JOIN produces " ++ toString last_count_no_where ++
         " rows, but the WHERE clause (" ++ where_clause ++
         ") filters all of them out.")
    else (st.culprit_table, st.culprit_reason)
  else (st.culprit_table, st.culprit_reason)

/-- The final fallback of `diagnose_empty_join`: when there is still no
culprit and the last join step produced 0 rows, attach a generic reason. -/
def fallback_phase (st : StepLoopState) (pair : Option String × String) :
    String :=
  if strOptFalsy pair.1 then
    match st.join_steps.getLast? with
    | some s =>
      if s.row_count = 0 then
        "The combination of all JOINs produces 0 rows. Check that join conditions have matching data across tables."
      else pair.2
    | none => pair.2
  else pair.2

/-- `diagnose_empty_join`, after query preprocessing: `tables` is the result
of `_extract_tables_from_query(query)` and `where_clause` the result of
`_extract_where_clause(query)`. -/
def diagnose_empty_join_core (db : String → QueryOutcome) (query : String)
    (tables : List TableInfo) (where_clause : String) :
    Option JoinDiagnostic :=
  if tables.length < 2 then none
  else
    let table_counts := tables.map (mkTableCount db)
    let empty_tables := table_counts.filter emptyTC
    match empty_tables with
    | tc0 :: _ =>
      let names := String.intercalate ", " (empty_tables.map (fun tc => tc.table_name))
      some { original_query := query, tables := tables,
             table_counts := table_counts, join_steps := [],
             culprit_table := some tc0.table_name,
             culprit_reason := "Table(s) " ++ names ++
               " contain 0 rows — any JOIN involving an empty table will always produce 0 results." }
    | [] =>
      let st := run_join_steps db tables (List.range' 1 (tables.length - 1))
        { join_steps := [], culprit_table := none, culprit_reason := "",
          prev_count := -1 }
      let pair := where_clause_phase db tables where_clause st
      some { original_query := query, tables := tables,
             table_counts := table_counts, join_steps := st.join_steps,
             culprit_table := pair.1,
             culprit_reason := fallback_phase st pair }

/-- The row count recorded at incremental step `i` (pure, since the oracle
is a function). -/
def stepCount (db : String → QueryOutcome) (tables : List TableInfo)
    (i : Nat) : Int :=
  (count_join_step db tables i "").1

/-- Step `i` is a qualifying zero drop: its count is 0 while the count the
loop saw before it was nonzero (the loop's `prev_count` starts at −1, so
step 1 qualifies exactly when its count is 0). -/
def qualStep (db : String → QueryOutcome) (tables : List TableInfo)
    (i : Nat) : Prop :=
  stepCount db tables i = 0 ∧ (i = 1 ∨ stepCount db tables (i - 1) ≠ 0)

instance (db : String → QueryOutcome) (tables : List TableInfo) (i : Nat) :
    Decidable (qualStep db tables i) := by
  unfold qualStep
  infer_instance

/-- The `prev_count` the loop holds when it is about to process step `a`. -/
def prevOf (db : String → QueryOutcome) (tables : List TableInfo)
    (a : Nat) : Int :=
  if a = 1 then -1 else stepCount db tables (a - 1)

/-! ## WHERE-column extraction (`suggestions._extract_where_columns`)

Two regexes are modelled:
the clause regex `\bWHERE\b\s+(.*?)(?:\bGROUP\b|\bORDER\b|\bLIMIT\b|\bHAVING\b|$)`
(IGNORECASE, DOTALL) and the column regex
`(\b[\w]+(?:\.[\w]+)?)\s*(?:=|!=|<>|>=|<=|>|<|\bIN\b|\bLIKE\b|\bBETWEEN\b|\bIS\b)`
(IGNORECASE) as used by `re.findall`.  In both, a shorter `[\w]+` capture
always leaves a word character where the next pattern element needs
whitespace, a dot, an operator or a word boundary, so only maximal word
runs can match; the only backtracking is dropping the optional `.part`
group.  `$` is modelled as end of string. -/

/-- Word boundary `\b` before the current position (`prev` is the previous
character, `none` at the start of the string), when the current position
holds a word character. -/
def wordBoundaryBefore : Option Char → Bool
  | none => true
  | some c => !isWordChar c

/-- Does the clause terminator `(?:\bGROUP\b|\bORDER\b|\bLIMIT\b|\bHAVING\b|$)`
match at this position? -/
def termAt (cs : List Char) (prev : Option Char) : Bool :=
  match cs with
  | [] => true
  | _ =>
    wordBoundaryBefore prev &&
    (["group", "order", "limit", "having"].any (fun kw =>
      match ciPrefix kw.toList cs with
      | some rest =>
        match rest with
        | [] => true
        | c :: _ => !isWordChar c
      | none => false))

/-- The lazy group `(.*?)` of the clause regex: the shortest prefix after
which a terminator matches. -/
def lazyUntilTerm : List Char → Option Char → List Char
  | [], _ => []
  | c :: rest, prev =>
    if termAt (c :: rest) prev then []
    else c :: lazyUntilTerm rest (some c)

/-- `re.search` for the clause regex: leftmost position with a word-bounded
case-insensitive `WHERE` followed by at least one whitespace; the capture is
the lazy body up to the first terminator. -/
def whereClauseSearch : List Char → Option Char → Option String
  | [], _ => none
  | c :: rest, prev =>
    let here : Option String :=
      if wordBoundaryBefore prev then
        match ciPrefix "where".toList (c :: rest) with
        | some r1 =>
          let sp := r1.takeWhile isSpacePy
          if sp.isEmpty then none
          else some (String.mk (lazyUntilTerm (r1.drop sp.length) (some ' ')))
        | none => none
      else none
    match here with
    | some r => some r
    | none => whereClauseSearch rest (some c)

/-- The comparison-operator alternation of the column regex, tried in the
pattern's order; returns the number of characters consumed.  The keyword
alternatives carry a trailing `\b`.  (Their leading `\b` always holds where
this is called: the position follows either whitespace or, with no
whitespace, a non-word character, which a keyword's first letter cannot
be.) -/
def opMatch (cs : List Char) : Option Nat :=
  if hasPrefixL ['='] cs then some 1
  else if hasPrefixL ['!', '='] cs then some 2
  else if hasPrefixL ['<', '>'] cs then some 2
  else if hasPrefixL ['>', '='] cs then some 2
  else if hasPrefixL ['<', '='] cs then some 2
  else if hasPrefixL ['>'] cs then some 1
  else if hasPrefixL ['<'] cs then some 1
  else
    (["in", "like", "between", "is"].firstM (fun kw =>
      match ciPrefix kw.toList cs with
      | some rest =>
        match rest with
        | [] => some kw.length
        | c :: _ => if isWordChar c then none else some kw.length
      | none => none))

/-- Match the column regex at the current position: returns the capture,
the remainder after the whole match, and the last consumed character. -/
def colMatchHere (cs : List Char) (prev : Option Char) :
    Option (String × List Char × Option Char) :=
  if !wordBoundaryBefore prev then none
  else
    let W1 := cs.takeWhile isWordChar
    if W1.isEmpty then none
    else
      let r1 := cs.drop W1.length
      let finish := fun (g1 : List Char) (r : List Char) =>
        let sp := r.takeWhile isSpacePy
        let r2 := r.drop sp.length
        match opMatch r2 with
        | some opLen =>
          some (String.mk g1, r2.drop opLen, (r2.take opLen).getLast?)
        | none => none
      let withDot : Option (String × List Char × Option Char) :=
        match r1 with
        | '.' :: r2 =>
          let W2 := r2.takeWhile isWordChar
          if W2.isEmpty then none
          else finish (W1 ++ '.' :: W2) (r2.drop W2.length)
        | _ => none
      match withDot with
      | some res => some res
      | none => finish W1 r1

/-- `re.findall` for the column regex: scan left to right, collecting
captures of non-overlapping matches.  `fuel` bounds the recursion; every
step consumes at least one character, so `fuel = cs.length` is enough. -/
def colFindAll : Nat → List Char → Option Char → List String
  | 0, _, _ => []
  | _ + 1, [], _ => []
  | fuel + 1, c :: rest, prev =>
    match colMatchHere (c :: rest) prev with
    | some (g1, rem, lastC) => g1 :: colFindAll fuel rem lastC
    | none => colFindAll fuel rest (some c)

/-- The SQL keyword set filtered out of the matches. -/
def sql_keywords : List String :=
  ["AND", "OR", "NOT", "NULL", "TRUE", "FALSE", "IN", "LIKE",
   "BETWEEN", "IS", "EXISTS", "ANY", "ALL", "SOME"]

/-- Order-preserving deduplication with a seen-set accumulator. -/
def dedupFirstAux (seen : List String) : List String → List String
  | [] => []
  | x :: xs =>
    if seen.contains x then dedupFirstAux seen xs
    else x :: dedupFirstAux (x :: seen) xs

/-- Order-preserving deduplication, as `list(dict.fromkeys(columns))`. -/
def dedupFirst (l : List String) : List String := dedupFirstAux [] l

/-- `_extract_where_columns`: isolate the WHERE clause, match column
references, drop SQL keywords, deduplicate preserving first occurrence. -/
def extract_where_columns (query : String) : List String :=
  match whereClauseSearch query.toList none with
  | none => []
  | some where_clause =>
    let cs := where_clause.toList
    let col_patterns := colFindAll cs.length cs none
    let columns := col_patterns.filter (fun col =>
      !(sql_keywords.contains (upperStr col)))
    dedupFirst columns


/-! ## Aggregation relations for the plan-walk proofs -/

/-- The aggregate (cost, row and buffer) fields of two metrics records
agree. -/
def AggEq (m r : PlanMetrics) : Prop :=
  r.estimated_rows = m.estimated_rows ∧ r.actual_rows = m.actual_rows ∧
  r.shared_hit_blocks = m.shared_hit_blocks ∧
  r.shared_read_blocks = m.shared_read_blocks ∧
  r.temp_read_blocks = m.temp_read_blocks ∧
  r.temp_written_blocks = m.temp_written_blocks ∧
  r.total_cost = m.total_cost ∧ r.startup_cost = m.startup_cost

/-- The aggregation relation `_walk_plan_node` establishes between the
metrics before and after processing a list of nodes: the row and buffer
fields each grow by the per-node sum; the total cost is an upper bound of
the nodes' total costs, does not decrease, and the cost/startup pair is
either unchanged or comes from one of the visited nodes. -/
def WalkRel (nodes : List NodeAttrs) (m r : PlanMetrics) : Prop :=
  r.estimated_rows = m.estimated_rows + (nodes.map (fun a => a.planRows)).sum ∧
  r.actual_rows = m.actual_rows + (nodes.map (fun a => a.actualRows)).sum ∧
  r.shared_hit_blocks =
    m.shared_hit_blocks + (nodes.map (fun a => a.sharedHit.getD 0)).sum ∧
  r.shared_read_blocks =
    m.shared_read_blocks + (nodes.map (fun a => a.sharedRead.getD 0)).sum ∧
  r.temp_read_blocks =
    m.temp_read_blocks + (nodes.map (fun a => a.tempRead.getD 0)).sum ∧
  r.temp_written_blocks =
    m.temp_written_blocks + (nodes.map (fun a => a.tempWritten.getD 0)).sum ∧
  (∀ a ∈ nodes, a.totalCost ≤ r.total_cost) ∧
  m.total_cost ≤ r.total_cost ∧
  ((r.total_cost = m.total_cost ∧ r.startup_cost = m.startup_cost) ∨
    ∃ a ∈ nodes, a.totalCost = r.total_cost ∧ a.startupCost = r.startup_cost)

/-! ## Concrete inputs used by the claim counterexamples and witnesses -/

/-- Four tables of a JOIN chain, for exercising the incremental loop. -/
def cexTablesC4 : List TableInfo :=
  [{ table_name := "ta", aliasName := "ta", join_type := "FROM" },
   { table_name := "tb", aliasName := "tb", join_type := "JOIN", on_condition := "1=1" },
   { table_name := "tc", aliasName := "tc", join_type := "JOIN", on_condition := "1=1" },
   { table_name := "td", aliasName := "td", join_type := "JOIN", on_condition := "1=1" }]

/-- A database oracle whose incremental JOIN counts are 0, 5, 0 (every
individual table count is 1): step 1 drops to zero, step 2 recovers (as a
RIGHT/FULL JOIN can), step 3 drops to zero again. -/
def cexDbC4 : String → QueryOutcome := fun sql =>
  if sql = "SELECT COUNT(*) FROM ta ta JOIN tb tb ON 1=1" then .ok (some 0)
  else if sql = "SELECT COUNT(*) FROM ta ta JOIN tb tb ON 1=1 JOIN tc tc ON 1=1" then .ok (some 5)
  else if sql = "SELECT COUNT(*) FROM ta ta JOIN tb tb ON 1=1 JOIN tc tc ON 1=1 JOIN td td ON 1=1" then .ok (some 0)
  else .ok (some 1)

/-- Three tables of a JOIN chain. -/
def wTablesC4 : List TableInfo :=
  [{ table_name := "wa", aliasName := "wa", join_type := "FROM" },
   { table_name := "wb", aliasName := "wb", join_type := "JOIN", on_condition := "1=1" },
   { table_name := "wc", aliasName := "wc", join_type := "JOIN", on_condition := "1=1" }]

/-- A database oracle under which only the full two-JOIN chain is empty. -/
def wDbC4 : String → QueryOutcome := fun sql =>
  if sql = "SELECT COUNT(*) FROM wa wa JOIN wb wb ON 1=1 JOIN wc wc ON 1=1" then .ok (some 0)
  else .ok (some 1)

/-- Two tables of a JOIN chain. -/
def wTablesC5 : List TableInfo :=
  [{ table_name := "ea", aliasName := "ea", join_type := "FROM" },
   { table_name := "eb", aliasName := "eb", join_type := "JOIN", on_condition := "1=1" }]

/-- A database oracle under which table `ea` is empty. -/
def wDbC5 : String → QueryOutcome := fun sql =>
  if sql = "SELECT COUNT(*) FROM ea" then .ok (some 0) else .ok (some 3)

/-- The row-count record the diagnostic produces for the empty table `ea`. -/
def wCountC5a : TableCount :=
  { table_name := "ea", aliasName := "ea", row_count := 0, error := none }

/-! ## Theorems -/

/-- Clamping to `[1, 10]` is monotone. -/
theorem clamp_mono {a b : Int} (h : a ≤ b) :
    max 1 (min 10 a) ≤ max 1 (min 10 b) := by omega

set_option maxHeartbeats 2000000 in
/-- C6: flipping any single boolean flag of the metrics to `true` (all other
fields held fixed) never increases the score of `_calculate_score`, and the
score always lies within `[1, 10]` — in particular also when every flag is
true and the execution time is far above the threshold. -/
theorem calculate_score_flag_monotone_and_range (m : PlanMetrics)
    (t : ℚ) (f : MetricFlag) :
    calculate_score (setFlag f m) t ≤ calculate_score m t ∧
    1 ≤ calculate_score m t ∧ calculate_score m t ≤ 10 := by
  refine ⟨?_, ?_, ?_⟩
  · cases f <;>
      (simp only [calculate_score, setFlag]; apply clamp_mono) <;>
      split_ifs <;> omega
  · simp only [calculate_score]
    split_ifs <;> omega
  · simp only [calculate_score]
    split_ifs <;> omega

/-- C7 counterexample: a metrics record whose execution time (0 ms) is below
half the threshold (500 ms) and whose boolean flags are all false, but whose
total cost exceeds 10,000 — `_calculate_score` returns 9, not 10, because
the high-cost deduction does not depend on any boolean flag. -/
theorem calculate_score_below_half_not_always_ten :
    (({ execution_time_ms := 0, total_cost := 20000 } : PlanMetrics).execution_time_ms
        < 500 / 2 ∧
      ({ execution_time_ms := 0, total_cost := 20000 } : PlanMetrics).has_sequential_scan = false ∧
      ({ execution_time_ms := 0, total_cost := 20000 } : PlanMetrics).has_full_table_scan = false ∧
      ({ execution_time_ms := 0, total_cost := 20000 } : PlanMetrics).has_nested_loop = false ∧
      ({ execution_time_ms := 0, total_cost := 20000 } : PlanMetrics).has_hash_join = false ∧
      ({ execution_time_ms := 0, total_cost := 20000 } : PlanMetrics).has_large_sort = false ∧
      ({ execution_time_ms := 0, total_cost := 20000 } : PlanMetrics).has_bitmap_heap_scan = false ∧
      ({ execution_time_ms := 0, total_cost := 20000 } : PlanMetrics).has_temp_disk_usage = false ∧
      ({ execution_time_ms := 0, total_cost := 20000 } : PlanMetrics).missing_index_likely = false) ∧
    calculate_score { execution_time_ms := 0, total_cost := 20000 } 500 = 9 := by
  refine ⟨⟨by norm_num, rfl, rfl, rfl, rfl, rfl, rfl, rfl, rfl⟩,
    by norm_num [calculate_score]⟩

/-- C7 (amended): for a metrics record with a nonnegative execution time
below half the threshold, all boolean flags false, and total cost at most
10,000, `_calculate_score` returns exactly 10. -/
theorem calculate_score_fast_clean_is_ten (m : PlanMetrics) (t : ℚ)
    (hexec : 0 ≤ m.execution_time_ms)
    (hhalf : m.execution_time_ms < t / 2)
    (hseq : m.has_sequential_scan = false)
    (hidx : m.missing_index_likely = false)
    (hloop : m.has_nested_loop = false)
    (hsort : m.has_large_sort = false)
    (htemp : m.has_temp_disk_usage = false)
    (hfull : m.has_full_table_scan = false)
    (hhash : m.has_hash_join = false)
    (hbitmap : m.has_bitmap_heap_scan = false)
    (hcost : m.total_cost ≤ 10000) :
    calculate_score m t = 10 := by
  have ht : ¬ m.execution_time_ms > t := by
    intro hgt
    have h0 : 0 < t / 2 := lt_of_le_of_lt hexec hhalf
    have h1 : t / 2 ≤ t := by linarith
    exact absurd hgt (by linarith)
  have ht2 : ¬ m.execution_time_ms > t / 2 := not_lt.mpr (le_of_lt hhalf)
  have hc : ¬ m.total_cost > 10000 := not_lt.mpr hcost
  simp only [calculate_score, hseq, hidx, hloop, hsort, htemp,
    if_neg ht, if_neg ht2, if_neg hc, Bool.false_eq_true, if_false]
  rfl

/-- C7 witness: the amended theorem applied at a concrete metrics record. -/
theorem calculate_score_fast_clean_witness :
    calculate_score { execution_time_ms := 100 } 500 = 10 :=
  calculate_score_fast_clean_is_ten { execution_time_ms := 100 } 500
    (by norm_num) (by norm_num) rfl rfl rfl rfl rfl rfl rfl rfl (by norm_num)

/-- C1: `analyze_query_plan` is *not* exception-free.  On the plan text
`"cost=1..2.3.4"` (not valid JSON, so the text fallback runs) the cost regex
`cost=(\d+\.?\d*)\.\.([\d.]+)` matches with second capture `"2.3.4"`, and
`float("2.3.4")` raises `ValueError` — inside the `except` handler, so it
propagates to the caller instead of a `PlanMetrics` being returned. -/
theorem analyze_query_plan_value_error_on_malformed_cost :
    analyze_query_plan (some { raw := "cost=1..2.3.4", parsed := none })
        0 500 "postgres" =
      .error "ValueError: could not convert string to float: 2.3.4" := by
  rfl

/-- C2 counterexample: for the unsupported engine identifier `"oracle"` and
the plan text `"Seq Scan on users"` (not valid JSON), `analyze_query_plan`
does not short-circuit to the default metrics: the text-dialect heuristics
run and set `has_sequential_scan` (and the score drops to 8). -/
theorem analyze_query_plan_unknown_engine_not_default :
    (analyze_query_plan (some { raw := "Seq Scan on users", parsed := none })
        0 500 "oracle").map (fun m => m.has_sequential_scan) = .ok true ∧
    (analyze_query_plan (some { raw := "Seq Scan on users", parsed := none })
        0 500 "oracle").map (fun m => m.performance_score) = .ok 8 := by
  constructor
  · rfl
  · norm_num [analyze_query_plan, parse_text_plan, calculate_score]
    rfl

/-- C2 (amended): `analyze_query_plan` has no unknown-engine short-circuit:
the only engine dispatched specially is `"sqlite"`, and every other
`db_type` value — supported or not — is processed exactly like the default
JSON-then-text engine path. -/
theorem analyze_query_plan_engine_dispatch_only_sqlite
    (db_type : String) (h : db_type ≠ "sqlite")
    (explain_output : Option ExplainInput) (e s : ℚ) :
    analyze_query_plan explain_output e s db_type =
      analyze_query_plan explain_output e s "postgres" := by
  simp [analyze_query_plan, h]

/-- C2 witness: the amended theorem applied at the unknown engine
`"oracle"` and a concrete input. -/
theorem analyze_query_plan_engine_dispatch_witness :
    analyze_query_plan (some { raw := "Seq Scan on users", parsed := none })
        0 500 "oracle" =
      analyze_query_plan (some { raw := "Seq Scan on users", parsed := none })
        0 500 "postgres" :=
  analyze_query_plan_engine_dispatch_only_sqlite "oracle" (by decide)
    (some { raw := "Seq Scan on users", parsed := none }) 0 500

/-- C3 counterexample: with no plan text, an execution time of 1000 ms and a
threshold of 500 ms, `analyze_query_plan` returns `performance_score = 10`
(the dataclass default — the function returns before `_calculate_score`
runs), while the scorer applied to the same all-zero/false baseline yields
7: the score is *not* computed against the baseline, and the over-threshold
execution time deducts nothing. -/
theorem analyze_query_plan_empty_plan_score_not_scored :
    (analyze_query_plan none 1000 500 "postgres").map
        (fun m => m.performance_score) = .ok 10 ∧
    calculate_score { execution_time_ms := 1000 } 500 = 7 := by
  exact ⟨rfl, by norm_num [calculate_score]⟩

/-- C3 (amended): for every execution time, threshold and engine,
`analyze_query_plan` on absent (`None`) or empty plan text returns the
metrics record whose fields are all at their dataclass defaults (every
boolean flag false, every count and cost zero) except `execution_time_ms`;
in particular `performance_score` stays at the default 10 — the scorer is
not invoked on the empty-plan baseline. -/
theorem analyze_query_plan_empty_plan_default_metrics
    (e s : ℚ) (db_type : String) (p : Option ParsedJson) :
    analyze_query_plan none e s db_type = .ok { execution_time_ms := e } ∧
    analyze_query_plan (some { raw := "", parsed := p }) e s db_type =
      .ok { execution_time_ms := e } := by
  constructor
  · simp [analyze_query_plan]
  · simp [analyze_query_plan]

/-! ### C8: aggregation of the JSON plan walk -/

theorem aggEq_refl {m : PlanMetrics} : AggEq m m :=
  ⟨rfl, rfl, rfl, rfl, rfl, rfl, rfl, rfl⟩

theorem aggEq_trans {m n r : PlanMetrics} (h1 : AggEq m n) (h2 : AggEq n r) :
    AggEq m r := by
  obtain ⟨a1, a2, a3, a4, a5, a6, a7, a8⟩ := h1
  obtain ⟨b1, b2, b3, b4, b5, b6, b7, b8⟩ := h2
  exact ⟨b1.trans a1, b2.trans a2, b3.trans a3, b4.trans a4, b5.trans a5,
    b6.trans a6, b7.trans a7, b8.trans a8⟩

theorem nodeTypeStep_agg (a : NodeAttrs) (m : PlanMetrics) :
    AggEq m (nodeTypeStep a m) := aggEq_refl

theorem scanStep_agg (a : NodeAttrs) (m : PlanMetrics) :
    AggEq m (scanStep a m) := by
  unfold AggEq
  simp only [scanStep]
  split_ifs <;> simp

theorem seqScanStep_agg (a : NodeAttrs) (m : PlanMetrics) :
    AggEq m (seqScanStep a m) := by
  unfold AggEq
  simp only [seqScanStep]
  split_ifs <;> simp

theorem bitmapStep_agg (a : NodeAttrs) (m : PlanMetrics) :
    AggEq m (bitmapStep a m) := by
  unfold bitmapStep AggEq
  split_ifs <;> simp

theorem joinTypesStep_agg (a : NodeAttrs) (m : PlanMetrics) :
    AggEq m (joinTypesStep a m) := by
  unfold joinTypesStep AggEq
  split_ifs <;> simp

theorem nestedLoopStep_agg (a : NodeAttrs) (m : PlanMetrics) :
    AggEq m (nestedLoopStep a m) := by
  unfold nestedLoopStep AggEq
  split_ifs <;> simp

theorem hashJoinStep_agg (a : NodeAttrs) (m : PlanMetrics) :
    AggEq m (hashJoinStep a m) := by
  unfold hashJoinStep AggEq
  split_ifs <;> simp

theorem sortStep_agg (a : NodeAttrs) (m : PlanMetrics) :
    AggEq m (sortStep a m) := by
  unfold AggEq
  simp only [sortStep]
  split_ifs <;> simp

theorem costStep_agg (a : NodeAttrs) (m : PlanMetrics) :
    (costStep a m).estimated_rows = m.estimated_rows ∧
    (costStep a m).actual_rows = m.actual_rows ∧
    (costStep a m).shared_hit_blocks = m.shared_hit_blocks ∧
    (costStep a m).shared_read_blocks = m.shared_read_blocks ∧
    (costStep a m).temp_read_blocks = m.temp_read_blocks ∧
    (costStep a m).temp_written_blocks = m.temp_written_blocks := by
  unfold costStep
  split_ifs <;> simp

/-- `costStep` either adopts the node's cost pair (when its total cost is
strictly larger) or keeps the old pair. -/
theorem costStep_cost (a : NodeAttrs) (m : PlanMetrics) :
    ((costStep a m).total_cost = a.totalCost ∧
      (costStep a m).startup_cost = a.startupCost ∧
      m.total_cost < a.totalCost) ∨
    ((costStep a m).total_cost = m.total_cost ∧
      (costStep a m).startup_cost = m.startup_cost ∧
      a.totalCost ≤ m.total_cost) := by
  unfold costStep
  split_ifs with h
  · exact Or.inl ⟨rfl, rfl, h⟩
  · exact Or.inr ⟨rfl, rfl, not_lt.mp h⟩

theorem rowsStep_fields (a : NodeAttrs) (m : PlanMetrics) :
    (rowsStep a m).estimated_rows = m.estimated_rows + a.planRows ∧
    (rowsStep a m).actual_rows = m.actual_rows + a.actualRows ∧
    (rowsStep a m).shared_hit_blocks = m.shared_hit_blocks ∧
    (rowsStep a m).shared_read_blocks = m.shared_read_blocks ∧
    (rowsStep a m).temp_read_blocks = m.temp_read_blocks ∧
    (rowsStep a m).temp_written_blocks = m.temp_written_blocks ∧
    (rowsStep a m).total_cost = m.total_cost ∧
    (rowsStep a m).startup_cost = m.startup_cost :=
  ⟨rfl, rfl, rfl, rfl, rfl, rfl, rfl, rfl⟩

theorem buffersStep_fields (a : NodeAttrs) (m : PlanMetrics) :
    (buffersStep a m).shared_hit_blocks =
      m.shared_hit_blocks + a.sharedHit.getD 0 ∧
    (buffersStep a m).shared_read_blocks =
      m.shared_read_blocks + a.sharedRead.getD 0 ∧
    (buffersStep a m).temp_read_blocks =
      m.temp_read_blocks + a.tempRead.getD 0 ∧
    (buffersStep a m).temp_written_blocks =
      m.temp_written_blocks + a.tempWritten.getD 0 ∧
    (buffersStep a m).estimated_rows = m.estimated_rows ∧
    (buffersStep a m).actual_rows = m.actual_rows ∧
    (buffersStep a m).total_cost = m.total_cost ∧
    (buffersStep a m).startup_cost = m.startup_cost := by
  unfold buffersStep
  rcases a.sharedHit with _ | v1 <;> rcases a.sharedRead with _ | v2 <;>
    rcases a.tempRead with _ | v3 <;> rcases a.tempWritten with _ | v4 <;>
    simp

theorem walkRel_nil (m : PlanMetrics) : WalkRel [] m m := by
  simp [WalkRel]

theorem walkRel_append {ns ns' : List NodeAttrs} {m r r' : PlanMetrics}
    (h1 : WalkRel ns m r) (h2 : WalkRel ns' r r') :
    WalkRel (ns ++ ns') m r' := by
  obtain ⟨e1, a1, s1, s2, t1, t2, hb, hm, hc⟩ := h1
  obtain ⟨e1', a1', s1', s2', t1', t2', hb', hm', hc'⟩ := h2
  refine ⟨?_, ?_, ?_, ?_, ?_, ?_, ?_, ?_, ?_⟩
  · simp only [List.map_append, List.sum_append]; omega
  · simp only [List.map_append, List.sum_append]; omega
  · simp only [List.map_append, List.sum_append]; omega
  · simp only [List.map_append, List.sum_append]; omega
  · simp only [List.map_append, List.sum_append]; omega
  · simp only [List.map_append, List.sum_append]; omega
  · intro a ha
    rcases List.mem_append.mp ha with h | h
    · exact le_trans (hb a h) hm'
    · exact hb' a h
  · exact le_trans hm hm'
  · rcases hc' with ⟨hceq, hsceq⟩ | ⟨a, ha, h⟩
    · rcases hc with ⟨hceq2, hsceq2⟩ | ⟨a, ha, h⟩
      · exact Or.inl ⟨hceq.trans hceq2, hsceq.trans hsceq2⟩
      · exact Or.inr ⟨a, List.mem_append_left _ ha,
          h.1.trans hceq.symm, h.2.trans hsceq.symm⟩
    · exact Or.inr ⟨a, List.mem_append_right _ ha, h⟩

/-- Visiting a single node establishes the aggregation relation for that
node alone. -/
theorem visit_rel (a : NodeAttrs) (m : PlanMetrics) :
    WalkRel [a] m (visit_node a m) := by
  have hAgg : AggEq (buffersStep a (rowsStep a (costStep a (nodeTypeStep a m))))
      (visit_node a m) := by
    unfold visit_node
    exact aggEq_trans (aggEq_trans (aggEq_trans (aggEq_trans (aggEq_trans
      (aggEq_trans (scanStep_agg _ _) (seqScanStep_agg _ _)) (bitmapStep_agg _ _))
      (joinTypesStep_agg _ _)) (nestedLoopStep_agg _ _)) (hashJoinStep_agg _ _))
      (sortStep_agg _ _)
  obtain ⟨g1, g2, g3, g4, g5, g6, g7, g8⟩ := hAgg
  obtain ⟨b1, b2, b3, b4, b5, b6, b7, b8⟩ :=
    buffersStep_fields a (rowsStep a (costStep a (nodeTypeStep a m)))
  obtain ⟨rr1, rr2, rr3, rr4, rr5, rr6, rr7, rr8⟩ :=
    rowsStep_fields a (costStep a (nodeTypeStep a m))
  obtain ⟨c1, c2, c3, c4, c5, c6⟩ := costStep_agg a (nodeTypeStep a m)
  have hcost := costStep_cost a (nodeTypeStep a m)
  refine ⟨?_, ?_, ?_, ?_, ?_, ?_, ?_, ?_, ?_⟩
  · simp only [List.map_cons, List.map_nil, List.sum_cons, List.sum_nil, add_zero]
    rw [g1, b5, rr1, c1]
    rfl
  · simp only [List.map_cons, List.map_nil, List.sum_cons, List.sum_nil, add_zero]
    rw [g2, b6, rr2, c2]
    rfl
  · simp only [List.map_cons, List.map_nil, List.sum_cons, List.sum_nil, add_zero]
    rw [g3, b1, rr3, c3]
    rfl
  · simp only [List.map_cons, List.map_nil, List.sum_cons, List.sum_nil, add_zero]
    rw [g4, b2, rr4, c4]
    rfl
  · simp only [List.map_cons, List.map_nil, List.sum_cons, List.sum_nil, add_zero]
    rw [g5, b3, rr5, c5]
    rfl
  · simp only [List.map_cons, List.map_nil, List.sum_cons, List.sum_nil, add_zero]
    rw [g6, b4, rr6, c6]
    rfl
  · intro x hx
    rw [List.mem_singleton] at hx
    subst hx
    rw [g7, b7, rr7]
    rcases hcost with ⟨hceq, _, _⟩ | ⟨hceq, _, hle⟩
    · rw [hceq]
    · rw [hceq]
      exact hle
  · rw [g7, b7, rr7]
    rcases hcost with ⟨hceq, _, hlt⟩ | ⟨hceq, _, _⟩
    · rw [hceq]
      exact le_of_lt hlt
    · rw [hceq]
      exact le_refl m.total_cost
  · rw [g7, b7, rr7, g8, b8, rr8]
    rcases hcost with ⟨hceq, hsceq, _⟩ | ⟨hceq, hsceq, _⟩
    · exact Or.inr ⟨a, List.mem_singleton_self a, hceq.symm, hsceq.symm⟩
    · exact Or.inl ⟨hceq, hsceq⟩

mutual

/-- `_walk_plan_node` establishes the aggregation relation over all nodes of
the tree, in any traversal state. -/
theorem walk_node_rel : ∀ (n : PlanNode) (m : PlanMetrics),
    WalkRel (allNodes n) m (walk_plan_node n m)
  | .node a ps, m =>
    walkRel_append (visit_rel a m) (walk_list_rel ps (visit_node a m))

/-- List form of `walk_node_rel` for the child recursion. -/
theorem walk_list_rel : ∀ (l : List PlanNode) (m : PlanMetrics),
    WalkRel (allNodesList l) m (walk_plan_list l m)
  | [], m => walkRel_nil m
  | p :: rest, m =>
    walkRel_append (walk_node_rel p m) (walk_list_rel rest (walk_plan_node p m))

end

/-- C8 counterexample: a single-node tree whose only node has
`Total Cost = 0` and `Startup Cost = 5`.  The walk keeps the initial cost
pair (the update requires a *strictly* larger total cost than the initial
0), so the recorded `startup_cost` is 0 — not the startup cost of the
(unique, hence maximal) node, as the claim would require. -/
theorem walk_plan_node_startup_not_from_max_node :
    allNodes (.node { nodeType := "Result", startupCost := 5, totalCost := 0 } []) =
      [{ nodeType := "Result", startupCost := 5, totalCost := 0 }] ∧
    (walk_plan_node
        (.node { nodeType := "Result", startupCost := 5, totalCost := 0 } [])
        {}).total_cost = 0 ∧
    (walk_plan_node
        (.node { nodeType := "Result", startupCost := 5, totalCost := 0 } [])
        {}).startup_cost = 0 ∧
    ({ nodeType := "Result", startupCost := 5, totalCost := 0 } : NodeAttrs).startupCost ≠
      (walk_plan_node
        (.node { nodeType := "Result", startupCost := 5, totalCost := 0 } [])
        {}).startup_cost := by
  refine ⟨rfl, rfl, rfl, ?_⟩
  have h : (walk_plan_node
      (.node { nodeType := "Result", startupCost := 5, totalCost := 0 } [])
      {}).startup_cost = 0 := rfl
  rw [h]
  norm_num

/-- C8 (amended): walking a JSON plan tree from a metrics record whose cost,
row and buffer fields are zero yields: `estimated_rows`, `actual_rows` and
the four buffer counters equal to the sum of the corresponding per-node
values over all nodes (an absent buffer key contributing 0), and — provided
some node has positive `Total Cost` — `total_cost` equal to the maximum
`Total Cost` over all nodes, with `startup_cost` taken from a node
achieving that maximum (costs are never summed). -/
theorem walk_plan_node_cost_max_rows_summed (t : PlanNode) (m0 : PlanMetrics)
    (hc : m0.total_cost = 0)
    (her : m0.estimated_rows = 0) (har : m0.actual_rows = 0)
    (hb1 : m0.shared_hit_blocks = 0) (hb2 : m0.shared_read_blocks = 0)
    (hb3 : m0.temp_read_blocks = 0) (hb4 : m0.temp_written_blocks = 0)
    (hpos : ∃ a ∈ allNodes t, 0 < a.totalCost) :
    (walk_plan_node t m0).estimated_rows =
      ((allNodes t).map (fun a => a.planRows)).sum ∧
    (walk_plan_node t m0).actual_rows =
      ((allNodes t).map (fun a => a.actualRows)).sum ∧
    (walk_plan_node t m0).shared_hit_blocks =
      ((allNodes t).map (fun a => a.sharedHit.getD 0)).sum ∧
    (walk_plan_node t m0).shared_read_blocks =
      ((allNodes t).map (fun a => a.sharedRead.getD 0)).sum ∧
    (walk_plan_node t m0).temp_read_blocks =
      ((allNodes t).map (fun a => a.tempRead.getD 0)).sum ∧
    (walk_plan_node t m0).temp_written_blocks =
      ((allNodes t).map (fun a => a.tempWritten.getD 0)).sum ∧
    (∀ a ∈ allNodes t, a.totalCost ≤ (walk_plan_node t m0).total_cost) ∧
    (∃ a ∈ allNodes t, a.totalCost = (walk_plan_node t m0).total_cost ∧
      a.startupCost = (walk_plan_node t m0).startup_cost) := by
  obtain ⟨e1, e2, e3, e4, e5, e6, hb, hm, hcase⟩ := walk_node_rel t m0
  refine ⟨by rw [e1, her, zero_add], by rw [e2, har, zero_add],
    by rw [e3, hb1, zero_add], by rw [e4, hb2, zero_add],
    by rw [e5, hb3, zero_add], by rw [e6, hb4, zero_add], hb, ?_⟩
  rcases hcase with ⟨hceq, _⟩ | h
  · obtain ⟨a, ha, hapos⟩ := hpos
    have hle := hb a ha
    rw [hceq, hc] at hle
    exact absurd (lt_of_lt_of_le hapos hle) (lt_irrefl 0)
  · exact h

/-- C8 witness: the amended theorem applied to a concrete two-node tree. -/
theorem walk_plan_node_cost_max_rows_summed_witness :
    (walk_plan_node
        (.node { nodeType := "Hash Join", startupCost := 2, totalCost := 10,
                 planRows := 7, actualRows := 3 }
          [.node { nodeType := "Seq Scan", totalCost := 4, planRows := 5,
                   sharedHit := some 8 } []])
        {}).estimated_rows =
      ((allNodes
        (.node { nodeType := "Hash Join", startupCost := 2, totalCost := 10,
                 planRows := 7, actualRows := 3 }
          [.node { nodeType := "Seq Scan", totalCost := 4, planRows := 5,
                   sharedHit := some 8 } []])).map (fun a => a.planRows)).sum :=
  (walk_plan_node_cost_max_rows_summed
    (.node { nodeType := "Hash Join", startupCost := 2, totalCost := 10,
             planRows := 7, actualRows := 3 }
      [.node { nodeType := "Seq Scan", totalCost := 4, planRows := 5,
               sharedHit := some 8 } []])
    {} rfl rfl rfl rfl rfl rfl rfl
    ⟨{ nodeType := "Hash Join", startupCost := 2, totalCost := 10,
       planRows := 7, actualRows := 3 },
      List.mem_cons_self _ _, by norm_num⟩).1

/-! ### C9: WHERE-column extraction -/

theorem dedupFirstAux_subset :
    ∀ (l seen : List String), ∀ x ∈ dedupFirstAux seen l, x ∈ l := by
  intro l
  induction l with
  | nil => intro seen x hx; exact absurd hx (List.not_mem_nil x)
  | cons y ys ih =>
    intro seen x hx
    rw [dedupFirstAux] at hx
    split at hx
    · exact List.mem_cons_of_mem _ (ih seen x hx)
    · rcases hx with _ | hx
      · exact List.mem_cons_self _ _
      · next hx => exact List.mem_cons_of_mem _ (ih _ x hx)

theorem dedupFirstAux_nodup :
    ∀ (l seen : List String), (dedupFirstAux seen l).Nodup ∧
      ∀ x ∈ dedupFirstAux seen l, ¬ x ∈ seen := by
  intro l
  induction l with
  | nil =>
    intro seen
    constructor
    · exact List.nodup_nil
    · intro x hx
      exact absurd hx (List.not_mem_nil x)
  | cons y ys ih =>
    intro seen
    rw [dedupFirstAux]
    split
    · exact ih seen
    · next hcon =>
      obtain ⟨hnd, hns⟩ := ih (y :: seen)
      refine ⟨List.nodup_cons.mpr ⟨?_, hnd⟩, ?_⟩
      · intro hmem
        exact hns y hmem (List.mem_cons_self _ _)
      · intro x hx
        rcases hx with _ | hx
        · intro hy
          exact hcon (by simpa using hy)
        · next hx =>
          intro hxs
          exact hns x hx (List.mem_cons_of_mem _ hxs)

theorem dedupFirst_subset (l : List String) : ∀ x ∈ dedupFirst l, x ∈ l :=
  dedupFirstAux_subset l []

theorem dedupFirst_nodup (l : List String) : (dedupFirst l).Nodup :=
  (dedupFirstAux_nodup l []).1

/-- C9: `_extract_where_columns` on `"WHERE status = 'active' AND age > 18"`
returns exactly `["status", "age"]`, in that order; and in general the
result never contains a match that is itself an SQL keyword, and is
duplicate-free (first occurrences preserved, by `dedupFirst`). -/
theorem extract_where_columns_example_and_props :
    extract_where_columns "WHERE status = \x27active\x27 AND age > 18" =
      ["status", "age"] ∧
    (∀ q : String, (extract_where_columns q).Nodup) ∧
    (∀ (q c : String), c ∈ extract_where_columns q →
      sql_keywords.contains (upperStr c) = false) := by
  refine ⟨by decide, ?_, ?_⟩
  · intro q
    unfold extract_where_columns
    cases whereClauseSearch q.toList none with
    | none => exact List.nodup_nil
    | some wc => exact dedupFirst_nodup _
  · intro q c hc
    unfold extract_where_columns at hc
    cases h : whereClauseSearch q.toList none with
    | none =>
      rw [h] at hc
      exact absurd hc (List.not_mem_nil c)
    | some wc =>
      rw [h] at hc
      have h2 := dedupFirst_subset _ _ hc
      have h3 := List.of_mem_filter h2
      simpa using h3

/-- C9 witness: the keyword-freeness part of the theorem applied at the
concrete query of the example. -/
theorem extract_where_columns_witness :
    sql_keywords.contains
      (upperStr "status") = false :=
  extract_where_columns_example_and_props.2.2
    "WHERE status = \x27active\x27 AND age > 18" "status" (by decide)

/-! ### C4, C5, C10: the JOIN diagnostic -/

/-- A substring of the right part is a substring of the whole. -/
theorem containsL_append_right (needle l1 l2 : List Char)
    (h : containsL needle l2 = true) : containsL needle (l1 ++ l2) = true := by
  induction l1 with
  | nil => simpa using h
  | cons c rest ih =>
    rw [List.cons_append, containsL]
    exact Bool.or_eq_true_iff.mpr (Or.inr ih)

/-- The incremental loop appends one `JoinStepResult` per processed index,
in order, whatever happens to the culprit. -/
theorem run_join_steps_steps (db : String → QueryOutcome)
    (tables : List TableInfo) :
    ∀ (idxs : List Nat) (st : StepLoopState),
      (run_join_steps db tables idxs st).join_steps =
        st.join_steps ++ idxs.map (mkJoinStep db tables) := by
  intro idxs
  induction idxs with
  | nil => intro st; simp [run_join_steps]
  | cons i rest ih =>
    intro st
    simp only [run_join_steps]
    rw [ih]
    split
    · simp
    · simp

/-- If no step of the processed range is a qualifying zero drop, the loop
leaves the culprit and its reason untouched. -/
theorem run_join_steps_nochange (db : String → QueryOutcome)
    (tables : List TableInfo) :
    ∀ (k a : Nat) (st : StepLoopState), 1 ≤ a →
      st.prev_count = prevOf db tables a →
      (∀ i ∈ List.range' a k, ¬ qualStep db tables i) →
      (run_join_steps db tables (List.range' a k) st).culprit_table =
          st.culprit_table ∧
        (run_join_steps db tables (List.range' a k) st).culprit_reason =
          st.culprit_reason := by
  intro k
  induction k with
  | zero => intro a st ha hprev hq; exact ⟨rfl, rfl⟩
  | succ n ih =>
    intro a st ha hprev hq
    rw [List.range'_succ a n 1]
    simp only [run_join_steps]
    have hcond : ¬ ((mkJoinStep db tables a).row_count = 0 ∧
        st.prev_count ≠ 0) := by
      rintro ⟨h0, hp⟩
      apply hq a (by rw [List.mem_range'_1]; omega)
      refine ⟨h0, ?_⟩
      rw [hprev] at hp
      unfold prevOf at hp
      by_cases ha1 : a = 1
      · exact Or.inl ha1
      · rw [if_neg ha1] at hp
        exact Or.inr hp
    rw [if_neg hcond]
    have hres := ih (a + 1)
      { st with join_steps := st.join_steps ++ [mkJoinStep db tables a],
                prev_count := (mkJoinStep db tables a).row_count }
      (by omega) (by unfold prevOf; rw [if_neg (by omega)]; simp; rfl)
      (fun i hi hqi => hq i (by rw [List.mem_range'_1] at hi ⊢; omega) hqi)
    exact hres

/-- If step `j` of the processed range is a qualifying zero drop and no
later step of the range is, the loop ends with the culprit set to the table
added at step `j` (the *last* qualifying drop wins, since each qualifying
drop overwrites the culprit). -/
theorem run_join_steps_last_drop (db : String → QueryOutcome)
    (tables : List TableInfo) :
    ∀ (k a j : Nat) (st : StepLoopState), 1 ≤ a →
      st.prev_count = prevOf db tables a →
      a ≤ j → j < a + k →
      qualStep db tables j →
      (∀ i ∈ List.range' a k, j < i → ¬ qualStep db tables i) →
      (run_join_steps db tables (List.range' a k) st).culprit_table =
          some (tables.getD j dfltTableInfo).table_name ∧
        (run_join_steps db tables (List.range' a k) st).culprit_reason =
          join_reason (tables.getD j dfltTableInfo) := by
  intro k
  induction k with
  | zero => intro a j st ha hprev haj hjk hq hlater; omega
  | succ n ih =>
    intro a j st ha hprev haj hjk hq hlater
    rw [List.range'_succ a n 1]
    simp only [run_join_steps]
    by_cases hja : j = a
    · subst hja
      have hcond : (mkJoinStep db tables j).row_count = 0 ∧
          st.prev_count ≠ 0 := by
        obtain ⟨h0, hor⟩ := hq
        refine ⟨h0, ?_⟩
        rw [hprev]
        unfold prevOf
        rcases hor with h1 | hns
        · rw [if_pos h1]
          omega
        · by_cases h1 : j = 1
          · rw [if_pos h1]
            omega
          · rw [if_neg h1]
            exact hns
      rw [if_pos hcond]
      have hres := run_join_steps_nochange db tables n (j + 1)
        { join_steps := st.join_steps ++ [mkJoinStep db tables j],
          culprit_table := some (tables.getD j dfltTableInfo).table_name,
          culprit_reason := join_reason (tables.getD j dfltTableInfo),
          prev_count := (mkJoinStep db tables j).row_count }
        (by omega) (by unfold prevOf; rw [if_neg (by omega)]; simp; rfl)
        (fun i hi => hlater i
          (by rw [List.mem_range'_1] at hi ⊢; omega)
          (by rw [List.mem_range'_1] at hi; omega))
      exact hres
    · refine ih (a + 1) j _ (by omega) ?_ (by omega) (by omega) hq
        (fun i hi hqi => hlater i (by rw [List.mem_range'_1] at hi ⊢; omega) hqi)
      unfold prevOf
      have h1 : ¬ (a + 1 = 1) := by omega
      rw [if_neg h1]
      rfl

/-- When the loop already holds a culprit with a non-empty table name, the
WHERE-clause phase changes nothing. -/
theorem where_clause_phase_skip (db : String → QueryOutcome)
    (tables : List TableInfo) (wc : String) (st : StepLoopState) (nm : String)
    (h : st.culprit_table = some nm) (hnm : nm ≠ "") :
    where_clause_phase db tables wc st =
      (st.culprit_table, st.culprit_reason) := by
  unfold where_clause_phase
  rw [h]
  simp [strOptFalsy, hnm]

/-- When the resolved culprit has a non-empty name, the fallback phase keeps
the reason. -/
theorem fallback_phase_skip (st : StepLoopState)
    (pair : Option String × String) (nm : String)
    (h : pair.1 = some nm) (hnm : nm ≠ "") :
    fallback_phase st pair = pair.2 := by
  unfold fallback_phase
  rw [h]
  simp [strOptFalsy, hnm]

/-- C5: when at least one table's count is zero with no query error (the
filtered list of empty tables is non-empty, `tc0` being its head — the
first such table in parse order), `diagnose_empty_join` concludes
immediately: the culprit is `tc0`, the reason mentions "0 rows", and
`join_steps` stays empty (no incremental join-step query is issued); the
per-table counts are still all recorded. -/
theorem diagnose_empty_table_short_circuit
    (db : String → QueryOutcome) (query where_clause : String)
    (tables : List TableInfo) (tc0 : TableCount) (tcrest : List TableCount)
    (h2 : 2 ≤ tables.length)
    (hfil : (tables.map (mkTableCount db)).filter emptyTC = tc0 :: tcrest) :
    ∃ d, diagnose_empty_join_core db query tables where_clause = some d ∧
      d.culprit_table = some tc0.table_name ∧
      containsSub d.culprit_reason "0 rows" = true ∧
      d.join_steps = [] ∧
      d.table_counts = tables.map (mkTableCount db) := by
  simp only [diagnose_empty_join_core]
  rw [if_neg (by omega), hfil]
  refine ⟨_, rfl, rfl, ?_, rfl, rfl⟩
  show containsSub ("Table(s) " ++
    String.intercalate ", " ((tc0 :: tcrest).map (fun tc => tc.table_name)) ++
    " contain 0 rows — any JOIN involving an empty table will always produce 0 results.")
    "0 rows" = true
  unfold containsSub
  rw [show ∀ a b : String, (a ++ b).toList = a.toList ++ b.toList from
    fun a b => String.data_append a b]
  exact containsL_append_right _ _ _ (by decide)

/-- C5 witness: the theorem applied at a concrete oracle under which the
first table `ea` is empty. -/
theorem diagnose_empty_table_short_circuit_witness :
    ∃ d, diagnose_empty_join_core wDbC5 "q" wTablesC5 "" = some d ∧
      d.culprit_table = some wCountC5a.table_name ∧
      containsSub d.culprit_reason "0 rows" = true ∧
      d.join_steps = [] ∧
      d.table_counts = wTablesC5.map (mkTableCount wDbC5) :=
  diagnose_empty_table_short_circuit wDbC5 "q" "" wTablesC5
    wCountC5a [] (by decide) (by decide)

/-- C10: whenever `diagnose_empty_join` returns a diagnostic (at least two
tables parsed), its `table_counts` is exactly one entry per parsed table,
in parse order — `tables.map (mkTableCount db)` — and each entry carries
the table's name and alias. -/
theorem diagnose_counts_every_table (db : String → QueryOutcome)
    (query wc : String) (tables : List TableInfo)
    (h2 : 2 ≤ tables.length) :
    ∃ d, diagnose_empty_join_core db query tables wc = some d ∧
      d.table_counts = tables.map (mkTableCount db) ∧
      ∀ t : TableInfo, (mkTableCount db t).table_name = t.table_name ∧
        (mkTableCount db t).aliasName = t.aliasName := by
  simp only [diagnose_empty_join_core]
  rw [if_neg (by omega)]
  split
  · exact ⟨_, rfl, rfl, fun t => ⟨rfl, rfl⟩⟩
  · exact ⟨_, rfl, rfl, fun t => ⟨rfl, rfl⟩⟩

/-- C10 witness: the theorem applied at a concrete two-table input. -/
theorem diagnose_counts_every_table_witness :
    ∃ d, diagnose_empty_join_core (fun _ => .ok (some 1)) "q" wTablesC5 "" =
        some d ∧
      d.table_counts = wTablesC5.map (mkTableCount (fun _ => .ok (some 1))) ∧
      ∀ t : TableInfo,
        (mkTableCount (fun _ => .ok (some 1)) t).table_name = t.table_name ∧
        (mkTableCount (fun _ => .ok (some 1)) t).aliasName = t.aliasName :=
  diagnose_counts_every_table (fun _ => .ok (some 1)) "q" "" wTablesC5
    (by decide)

/-- C4 counterexample: with step counts 0, 5, 0 (individual tables all
non-empty), the first qualifying zero drop is step 1, whose added table is
`tb` — but the diagnostic reports `td`, the table of the *last*
nonzero-to-zero transition (step 3 overwrites the culprit recorded at
step 1).  All three steps are still recorded. -/
theorem diagnose_overwrites_culprit_on_later_drop :
    stepCount cexDbC4 cexTablesC4 1 = 0 ∧
    stepCount cexDbC4 cexTablesC4 2 = 5 ∧
    stepCount cexDbC4 cexTablesC4 3 = 0 ∧
    (diagnose_empty_join_core cexDbC4 "q" cexTablesC4 "").map
      (fun d => d.culprit_table) = some (some "td") ∧
    (diagnose_empty_join_core cexDbC4 "q" cexTablesC4 "").map
      (fun d => d.join_steps.length) = some 3 :=
  ⟨rfl, rfl, rfl, rfl, rfl⟩

/-- C4 (amended): in the incremental phase (no table individually empty,
all parsed table names non-empty), if step `j` is a qualifying zero drop —
its count is 0 while the previous step's count was nonzero, or `j = 1` with
count 0 — and no *later* step of the range qualifies, then the diagnostic's
culprit is the table added at step `j` with the matching reason; the
culprit of the *last* qualifying transition is the one reported, and every
step is still executed and recorded in `join_steps`, in order. -/
theorem diagnose_last_qualifying_drop (db : String → QueryOutcome)
    (query wc : String) (tables : List TableInfo) (j : Nat)
    (h2 : 2 ≤ tables.length)
    (hnames : ∀ t ∈ tables, ¬ t.table_name = "")
    (hnoempty : (tables.map (mkTableCount db)).filter emptyTC = [])
    (hj1 : 1 ≤ j) (hj2 : j ≤ tables.length - 1)
    (hq : qualStep db tables j)
    (hlast : ∀ i ∈ List.range' 1 (tables.length - 1),
      j < i → ¬ qualStep db tables i) :
    ∃ d, diagnose_empty_join_core db query tables wc = some d ∧
      d.culprit_table = some (tables.getD j dfltTableInfo).table_name ∧
      d.culprit_reason = join_reason (tables.getD j dfltTableInfo) ∧
      d.join_steps =
        (List.range' 1 (tables.length - 1)).map (mkJoinStep db tables) := by
  have hculprit := run_join_steps_last_drop db tables (tables.length - 1) 1 j
    { join_steps := [], culprit_table := none, culprit_reason := "",
      prev_count := -1 }
    le_rfl rfl hj1 (by omega) hq hlast
  have hsteps := run_join_steps_steps db tables
    (List.range' 1 (tables.length - 1))
    { join_steps := [], culprit_table := none, culprit_reason := "",
      prev_count := -1 }
  have hname : (tables.getD j dfltTableInfo).table_name ≠ "" := by
    have hmem : tables.getD j dfltTableInfo ∈ tables := by
      rw [List.getD_eq_getElem _ _ (by omega : j < tables.length)]
      exact List.getElem_mem _
    exact hnames _ hmem
  simp only [diagnose_empty_join_core]
  rw [if_neg (by omega), hnoempty]
  rw [where_clause_phase_skip db tables wc _ _ hculprit.1 hname]
  rw [fallback_phase_skip _ _ _ hculprit.1 hname]
  refine ⟨_, rfl, hculprit.1, hculprit.2, ?_⟩
  rw [hsteps]
  simp

/-- C4 witness: the amended theorem applied at a concrete three-table input
whose only qualifying drop is the last step. -/
theorem diagnose_last_qualifying_drop_witness :
    ∃ d, diagnose_empty_join_core wDbC4 "q" wTablesC4 "" = some d ∧
      d.culprit_table = some (wTablesC4.getD 2 dfltTableInfo).table_name ∧
      d.culprit_reason = join_reason (wTablesC4.getD 2 dfltTableInfo) ∧
      d.join_steps =
        (List.range' 1 (wTablesC4.length - 1)).map (mkJoinStep wDbC4 wTablesC4) :=
  diagnose_last_qualifying_drop wDbC4 "q" "" wTablesC4 2
    (by decide) (by decide) (by decide) (by decide) (by decide) (by decide)
    (by decide)
